import Mathlib

/-!
Shallow embedding of the sunxi SPL SPI image loader
(arch/arm/mach-sunxi/spl_spi_sunxi.c) and proofs of its specified
properties.

Hardware register writes and bus transactions are modelled as traces of
events; flash devices and external collaborators (the structured-image
loader `spl_load_simple_fit` and the legacy header parser
`spl_parse_image_header`) are modelled as oracles supplied as parameters.
Loops whose C termination rests on unsigned arithmetic are written with an
explicit fuel argument that the wrappers instantiate with a provably
sufficient value, keeping every definition executable.
-/

/-- FIFO size minus the 4 command-header bytes (SPI_READ_MAX_SIZE in the
source). -/
def SPI_READ_MAX_SIZE : Nat := 60

/-- Linux errno for invalid argument; the source returns `-EINVAL`. -/
def EINVAL : Int := 22

/-- Linux errno for timeout; the source returns `-ETIMEDOUT`. -/
def ETIMEDOUT : Int := 110

/-- Magic number of the structured (FIT) image format, `FDT_MAGIC`. -/
def FDT_MAGIC : Nat := 0xd00dfeed

/-- Magic number of the legacy flat image header, `IH_MAGIC`. -/
def IH_MAGIC : Nat := 0x27051956

/-- Byte offset of the SUN6I byte-count-confirm register (`SUN6I_SPI0_BCC`). -/
def SUN6I_SPI0_BCC : Nat := 0x38

/-! ## Byte transfer engine (`sunxi_spi0_xfer`, `spi0_xfer`) -/

/-- One register-level step performed by `sunxi_spi0_xfer`. -/
inductive XferStep where
  | writeBC (v : Nat)        -- writel(txlen + rxlen, spi_bc_reg)
  | writeTC (v : Nat)        -- writel(txlen, spi_tc_reg)
  | writeBCC (v : Nat)       -- writel(txlen, spi_bcc_reg), SUN6I only
  | writeTX (b : Nat)        -- writeb(*txbuf++, spi_tx_reg)
  | setXCH                   -- setbits_le32(spi_ctl_reg, xch bitmask)
  | pollFifoLow7 (target : Nat) -- while ((readl(fifo) & 0x7F) < target)
  | skipRxByte               -- readb(spi_rx_reg), result discarded
  | readRxByte               -- *rxbuf++ = readb(spi_rx_reg)
deriving DecidableEq, Repr

/-- The `for (i = 0; i < txlen; i++) writeb(*txbuf++, spi_tx_reg)` loop. -/
def tx_writes : List Nat → List XferStep
  | [] => []
  | b :: bs => XferStep.writeTX b :: tx_writes bs

/-- The `for (i = 0; i < txlen; i++) readb(spi_rx_reg)` skip loop. -/
def rx_skips : Nat → List XferStep
  | 0 => []
  | n + 1 => XferStep.skipRxByte :: rx_skips n

/-- The `while (rxlen-- > 0) *rxbuf++ = readb(spi_rx_reg)` drain loop. -/
def rx_reads : Nat → List XferStep
  | 0 => []
  | n + 1 => XferStep.readRxByte :: rx_reads n

/-- Register-level trace of `sunxi_spi0_xfer(txbuf, txlen, rxbuf, rxlen, ...)`.
`spi_bcc_reg` is the byte-count-confirm register address; the source guards
the extra write with `if (spi_bcc_reg)`. -/
def sunxi_spi0_xfer (txbuf : List Nat) (rxlen : Nat) (spi_bcc_reg : Nat) :
    List XferStep :=
  XferStep.writeBC (txbuf.length + rxlen) ::
  XferStep.writeTC txbuf.length ::
  ((if spi_bcc_reg ≠ 0 then [XferStep.writeBCC txbuf.length] else []) ++
   tx_writes txbuf ++
   [XferStep.setXCH, XferStep.pollFifoLow7 (txbuf.length + rxlen)] ++
   rx_skips txbuf.length ++
   rx_reads rxlen)

/-- `spi0_xfer`: the SUN6I generation passes `base + SUN6I_SPI0_BCC` as the
byte-count-confirm register, the SUN4I generation passes 0. -/
def spi0_xfer (base : Nat) (sun6i : Bool) (txbuf : List Nat) (rxlen : Nat) :
    List XferStep :=
  if sun6i then sunxi_spi0_xfer txbuf rxlen (base + SUN6I_SPI0_BCC)
  else sunxi_spi0_xfer txbuf rxlen 0

/-! ## Chunked data read (`spi0_read_data`) -/

/-- The `addr_len` argument of `spi0_read_data`; the source is only ever
called with 3 (NOR) or 2 (NAND column address). -/
inductive AddrLen where
  | a3
  | a2
deriving DecidableEq, Repr

/-- The 4-byte Read Data Bytes (03h) command header built by
`spi0_read_data`: for `addr_len == 3` a 3-byte big-endian address, for
`addr_len == 2` a 2-byte big-endian address followed by a zero dummy byte.
A `(u8)` cast is `% 256`, `>> 16` is `/ 65536`, `>> 8` is `/ 256`. -/
def read_cmd (addr : Nat) : AddrLen → List Nat
  | AddrLen.a3 => [0x03, addr / 65536 % 256, addr / 256 % 256, addr % 256]
  | AddrLen.a2 => [0x03, addr / 256 % 256, addr % 256, 0]

/-- One `spi0_xfer(txbuf, 4, buf8, chunk_len)` transfer issued from the
`spi0_read_data` loop: the address variable at that iteration, the 4-byte
command header, and the chunk length clocked in. -/
structure ReadXfer where
  addr : Nat
  tx : List Nat
  rxlen : Nat
deriving DecidableEq, Repr

/-- Transfers issued by the `while (len > 0)` loop of `spi0_read_data`.
Each iteration reads `chunk_len = min len SPI_READ_MAX_SIZE` bytes and
advances `addr` by `chunk_len`.  The fuel argument only bounds the
iteration count; callers pass `len`, which suffices because every
iteration consumes at least one byte. -/
def spi0_read_data_xfers (alen : AddrLen) : Nat → Nat → Nat → List ReadXfer
  | 0, _, _ => []
  | fuel + 1, addr, len =>
    if len = 0 then []
    else
      let chunk_len := min len SPI_READ_MAX_SIZE
      ⟨addr, read_cmd addr alen, chunk_len⟩ ::
        spi0_read_data_xfers alen fuel (addr + chunk_len) (len - chunk_len)

/-- Bytes deposited into the destination buffer by the same loop, given a
device oracle `flash` mapping a flash byte address to the stored byte. -/
def spi0_read_data_buf (flash : Nat → Nat) : Nat → Nat → Nat → List Nat
  | 0, _, _ => []
  | fuel + 1, addr, len =>
    if len = 0 then []
    else
      let chunk_len := min len SPI_READ_MAX_SIZE
      ((List.range chunk_len).map fun i => flash (addr + i)) ++
        spi0_read_data_buf flash fuel (addr + chunk_len) (len - chunk_len)

/-- `spi0_read_data(buf, addr, len, addr_len)`: the transfers it issues. -/
def spi0_read_data_cmds (addr len : Nat) (alen : AddrLen) : List ReadXfer :=
  spi0_read_data_xfers alen len addr len

/-- `spi0_read_data(buf, addr, len, addr_len)`: the bytes it writes. -/
def spi0_read_data_bytes (flash : Nat → Nat) (addr len : Nat) : List Nat :=
  spi0_read_data_buf flash len addr len

/-! ## NAND page switch (`spi0_nand_switch_page`) -/

/-- The Page Data Read (13h) command header built by
`spi0_nand_switch_page`: opcode then the page index, big-endian. -/
def spi0_nand_switch_page_tx (page : Nat) : List Nat :=
  [0x13, page / 65536 % 256, page / 256 % 256, page % 256]

/-- The `for (count = 0; count < 100; count++)` status-poll loop.
`status i` is the status byte returned by the i-th Get Features
(0fh, c0h) poll; the loop exits as soon as bit 0 is clear, returning the
index of the successful poll. -/
def switch_page_polls (status : Nat → Nat) : Nat → Nat → Option Nat
  | 0, _ => none
  | fuel + 1, count =>
    if status count % 2 = 0 then some count
    else switch_page_polls status fuel (count + 1)

/-- `spi0_nand_switch_page(page)`: issues the 13h command, then polls the
status byte up to 100 times; the result is the command header issued and
the return value, 0 on success and `-ETIMEDOUT` when the chip stays
busy. -/
def spi0_nand_switch_page (status : Nat → Nat) (page : Nat) :
    List Nat × Int :=
  (spi0_nand_switch_page_tx page,
   match switch_page_polls status 100 0 with
   | some _ => 0
   | none => -ETIMEDOUT)

/-! ## NAND read (`spi_load_read_nand`) -/

/-- One page-level cycle of the NAND read loop. -/
inductive NandEvent where
  | pageSwitch (page : Nat)
  | dataRead (off len : Nat)
deriving DecidableEq, Repr

/-- The `while (remain)` loop of `spi_load_read_nand`.  `statusOf iter` is
the status-poll oracle seen by the iter-th page switch, `flash` the flash
content oracle: a page-cache read of page `p` at column `c` returns the
byte stored at flat offset `p * pagesize + c`.  Returns the page-cycle
trace, the bytes written to the destination buffer, and whether the loop
ran to completion (false on a page-switch timeout, where the source
returns 0).  Callers pass `count` as fuel; when `pagesize > 0` every
iteration consumes at least one byte of `remain`. -/
def read_nand_go (pagesize : Nat) (statusOf : Nat → Nat → Nat)
    (flash : Nat → Nat) : Nat → Nat → Nat → Nat →
    List NandEvent × List Nat × Bool
  | 0, _, _, _ => ([], [], true)
  | fuel + 1, iter, sector, remain =>
    if remain = 0 then ([], [], true)
    else
      let count_in_page := min remain (pagesize - sector % pagesize)
      let current_page := sector / pagesize
      if (spi0_nand_switch_page (statusOf iter) current_page).2 ≠ 0 then
        ([NandEvent.pageSwitch current_page], [], false)
      else
        let rest := read_nand_go pagesize statusOf flash fuel (iter + 1)
          (sector + count_in_page) (remain - count_in_page)
        (NandEvent.pageSwitch current_page ::
           NandEvent.dataRead (sector % pagesize) count_in_page :: rest.1,
         spi0_read_data_bytes (fun c => flash (current_page * pagesize + c))
           (sector % pagesize) count_in_page ++ rest.2.1,
         rest.2.2)

/-- Full run of `spi_load_read_nand(load, sector, count, buf)`:
page-cycle trace, bytes written into `buf`, and completion flag. -/
def spi_load_read_nand_run (pagesize : Nat) (statusOf : Nat → Nat → Nat)
    (flash : Nat → Nat) (sector count : Nat) :
    List NandEvent × List Nat × Bool :=
  read_nand_go pagesize statusOf flash count 0 sector count

/-- Return value of `spi_load_read_nand`: `count` when the loop completes,
0 when a page switch times out (`return 0` in the source). -/
def spi_load_read_nand (pagesize : Nat) (statusOf : Nat → Nat → Nat)
    (flash : Nat → Nat) (sector count : Nat) : Nat :=
  if (spi_load_read_nand_run pagesize statusOf flash sector count).2.2 then
    count
  else 0

/-- `spi_load_read_nor(load, sector, count, buf)`: one
`spi0_read_data(buf, sector, count, 3)` call, then `return count`.
Result: the transfers issued, the bytes written, and the returned count. -/
def spi_load_read_nor (flash : Nat → Nat) (sector count : Nat) :
    List ReadXfer × List Nat × Nat :=
  (spi0_read_data_cmds sector count AddrLen.a3,
   spi0_read_data_bytes flash sector count,
   count)

/-- Specification-side well-formedness of a NAND page-cycle trace starting
at byte offset `sector`: every page switch targets `offset / pagesize` and
every data read starts at column `offset % pagesize`, where `offset` is
the running byte offset. -/
inductive PageCmdOk (pagesize : Nat) : Nat → List NandEvent → Prop where
  | nil (sector : Nat) : PageCmdOk pagesize sector []
  | stop (sector : Nat) :
      PageCmdOk pagesize sector [NandEvent.pageSwitch (sector / pagesize)]
  | step (sector l : Nat) (rest : List NandEvent)
      (h : PageCmdOk pagesize (sector + l) rest) :
      PageCmdOk pagesize sector
        (NandEvent.pageSwitch (sector / pagesize) ::
         NandEvent.dataRead (sector % pagesize) l :: rest)

/-! ## Image dispatch (`spl_spi_try_load`, `spl_spi_load_image`) -/

/-- `image_get_magic(header)`: the first four header bytes read as a
big-endian 32-bit value (the legacy header stores `ih_magic` big-endian
and `image_get_magic` converts it to CPU order). -/
def image_get_magic (hdr : List Nat) : Nat :=
  hdr.getD 0 0 * 16777216 + hdr.getD 1 0 * 65536 +
    hdr.getD 2 0 * 256 + hdr.getD 3 0

/-- Result of the external legacy header parser
`spl_parse_image_header`: its status code and the `size` and `load_addr`
fields it fills into `spl_image`. -/
structure ParseResult where
  ret : Int
  size : Nat
  load_addr : Nat

/-- Oracles for one dispatch run: `read` is the active `load->read`
function returning (byte count actually read, bytes deposited in the
destination); `simple_fit` is the external structured-image loader
`spl_load_simple_fit`; `parse_header` the external legacy header parser. -/
structure DispatchEnv where
  read : Nat → Nat → Nat × List Nat
  simple_fit : Nat → List Nat → Int
  parse_header : List Nat → ParseResult

/-- Observable calls made by the dispatch code. -/
inductive LoadEvent where
  | readEv (offset count : Nat)
  | fitEv
  | parseEv
  | initEv
  | nandResetEv
  | deinitEv
deriving DecidableEq, Repr

/-- `spl_spi_try_load(spl_image, bootdev, load, offset, allow_raw)`:
reads a 0x40-byte header, classifies it, and either delegates to the
structured loader, runs the legacy parse-and-read path, or fails with
`-EINVAL`.  Returns the call trace and the status code. -/
def spl_spi_try_load (fit_enabled : Bool) (env : DispatchEnv)
    (offset : Nat) (allow_raw : Bool) : List LoadEvent × Int :=
  let hdr := (env.read offset 0x40).2
  if (env.read offset 0x40).1 = 0 then
    ([LoadEvent.readEv offset 0x40], -EINVAL)
  else if fit_enabled = true ∧ image_get_magic hdr = FDT_MAGIC then
    ([LoadEvent.readEv offset 0x40, LoadEvent.fitEv],
     env.simple_fit offset hdr)
  else if allow_raw = false ∧ image_get_magic hdr ≠ IH_MAGIC then
    ([LoadEvent.readEv offset 0x40], -EINVAL)
  else if (env.parse_header hdr).ret ≠ 0 then
    ([LoadEvent.readEv offset 0x40, LoadEvent.parseEv],
     (env.parse_header hdr).ret)
  else if (env.read offset (env.parse_header hdr).size).1 = 0 then
    ([LoadEvent.readEv offset 0x40, LoadEvent.parseEv,
      LoadEvent.readEv offset (env.parse_header hdr).size], -EINVAL)
  else
    ([LoadEvent.readEv offset 0x40, LoadEvent.parseEv,
      LoadEvent.readEv offset (env.parse_header hdr).size], 0)

/-- The boot devices this loader is registered for; the `switch` in
`spl_spi_load_image` has exactly these two cases. -/
inductive BootDev where
  | spi
  | spinand
deriving DecidableEq, Repr

/-- `allow_raw` is set to true only in the `BOOT_DEVICE_SPI` case. -/
def allow_raw_for : BootDev → Bool
  | BootDev.spi => true
  | BootDev.spinand => false

/-- `spl_spi_load_image(spl_image, bootdev)`: computes the load offset as
`max(sunxi_get_spl_size(), CONFIG_SYS_SPI_U_BOOT_OFFS)` (the former is
passed in as `spl_size`, the latter as `min_offs`), runs `spi0_init`,
per-device setup, `spl_spi_try_load`, then `spi0_deinit`, and returns the
status from `spl_spi_try_load`. -/
def spl_spi_load_image (fit_enabled : Bool) (spl_size min_offs : Nat)
    (env : DispatchEnv) (dev : BootDev) : List LoadEvent × Int :=
  let load_offset := max spl_size min_offs
  let pre := LoadEvent.initEv ::
    (match dev with
     | BootDev.spinand => [LoadEvent.nandResetEv]
     | BootDev.spi => [])
  let r := spl_spi_try_load fit_enabled env load_offset (allow_raw_for dev)
  (pre ++ r.1 ++ [LoadEvent.deinitEv], r.2)

/-- A 64-byte header carrying the legacy magic `IH_MAGIC` in its first
four bytes. -/
def legacyHdr : List Nat := [0x27, 0x05, 0x19, 0x56] ++ List.replicate 60 0

/-- Oracles for a device holding a legacy image: every read succeeds and
returns `legacyHdr`; the header parser succeeds with size 4096 and load
address 0x1000. -/
def envLegacy : DispatchEnv where
  read := fun _ count => (count, legacyHdr)
  simple_fit := fun _ _ => 0
  parse_header := fun _ => ⟨0, 4096, 0x1000⟩

/-- Oracles for a device whose reads always fail (return 0 bytes). -/
def envDead : DispatchEnv where
  read := fun _ _ => (0, [])
  simple_fit := fun _ _ => 0
  parse_header := fun _ => ⟨0, 0, 0⟩

/-! ## Helper lemmas -/

theorem tx_writes_eq_map (l : List Nat) :
    tx_writes l = l.map XferStep.writeTX := by
  induction l with
  | nil => rfl
  | cons b bs ih => simp [tx_writes, ih]

theorem rx_skips_eq (n : Nat) :
    rx_skips n = List.replicate n XferStep.skipRxByte := by
  induction n with
  | zero => rfl
  | succ n ih => simp [rx_skips, ih, List.replicate_succ]

theorem rx_reads_eq (n : Nat) :
    rx_reads n = List.replicate n XferStep.readRxByte := by
  induction n with
  | zero => rfl
  | succ n ih => simp [rx_reads, ih, List.replicate_succ]

theorem head_mem {α : Type} {l : List α} {a : α} (h : l.head? = some a) :
    a ∈ l := by
  cases l with
  | nil => simp at h
  | cons b t =>
    simp only [List.head?_cons, Option.some.injEq] at h
    subst h
    exact List.mem_cons_self _ _

theorem rd_xfers_mem (alen : AddrLen) :
    ∀ (fuel addr len : Nat), ∀ x ∈ spi0_read_data_xfers alen fuel addr len,
      1 ≤ x.rxlen ∧ x.rxlen ≤ SPI_READ_MAX_SIZE ∧
      x.tx = read_cmd x.addr alen ∧
      addr ≤ x.addr ∧ x.addr + x.rxlen ≤ addr + len := by
  intro fuel
  induction fuel with
  | zero => intro addr len x hx; simp [spi0_read_data_xfers] at hx
  | succ fuel ih =>
    intro addr len x hx
    by_cases h0 : len = 0
    · simp [spi0_read_data_xfers, h0] at hx
    · simp only [spi0_read_data_xfers, if_neg h0, List.mem_cons] at hx
      rcases hx with rfl | hx
      · refine ⟨?_, ?_, rfl, le_refl _, ?_⟩ <;>
          simp only [SPI_READ_MAX_SIZE] <;> omega
      · obtain ⟨h1, h2, h3, h4, h5⟩ := ih _ _ x hx
        refine ⟨h1, h2, h3, by omega, ?_⟩
        simp only [SPI_READ_MAX_SIZE] at *
        omega

theorem rd_xfers_nil (alen : AddrLen) (fuel addr : Nat) :
    spi0_read_data_xfers alen fuel addr 0 = [] := by
  cases fuel <;> simp [spi0_read_data_xfers]

theorem rd_xfers_cons (alen : AddrLen) (fuel addr len : Nat) (h : len ≠ 0) :
    spi0_read_data_xfers alen (fuel + 1) addr len =
      ⟨addr, read_cmd addr alen, min len SPI_READ_MAX_SIZE⟩ ::
        spi0_read_data_xfers alen fuel (addr + min len SPI_READ_MAX_SIZE)
          (len - min len SPI_READ_MAX_SIZE) := by
  simp [spi0_read_data_xfers, h]

theorem rd_xfers_chain (alen : AddrLen) :
    ∀ (fuel addr len : Nat), len ≤ fuel →
      List.Chain' (fun a b : ReadXfer =>
        a.rxlen = SPI_READ_MAX_SIZE ∧ b.addr = a.addr + a.rxlen)
        (spi0_read_data_xfers alen fuel addr len) := by
  intro fuel
  induction fuel with
  | zero =>
    intro addr len h
    have : len = 0 := by omega
    subst this
    simp [rd_xfers_nil]
  | succ fuel ih =>
    intro addr len hle
    by_cases h0 : len = 0
    · subst h0; simp [rd_xfers_nil]
    · rw [rd_xfers_cons alen fuel addr len h0]
      by_cases h1 : len - min len SPI_READ_MAX_SIZE = 0
      · rw [h1, rd_xfers_nil]
        exact List.chain'_singleton _
      · have hfuel : len - min len SPI_READ_MAX_SIZE ≤ fuel := by
          simp only [SPI_READ_MAX_SIZE] at *; omega
        cases fuel with
        | zero => omega
        | succ f =>
          rw [rd_xfers_cons alen f _ _ h1]
          refine List.Chain'.cons ⟨?_, rfl⟩ ?_
          · simp only [SPI_READ_MAX_SIZE] at *; omega
          · rw [← rd_xfers_cons alen f _ _ h1]
            exact ih _ _ hfuel

theorem rd_buf_len (flash : Nat → Nat) :
    ∀ (fuel addr len : Nat), len ≤ fuel →
      (spi0_read_data_buf flash fuel addr len).length = len := by
  intro fuel
  induction fuel with
  | zero =>
    intro addr len h
    have : len = 0 := by omega
    subst this
    simp [spi0_read_data_buf]
  | succ fuel ih =>
    intro addr len hle
    by_cases h0 : len = 0
    · simp [spi0_read_data_buf, h0]
    · have hfuel : len - min len SPI_READ_MAX_SIZE ≤ fuel := by
        simp only [SPI_READ_MAX_SIZE]; omega
      simp only [spi0_read_data_buf, if_neg h0, List.length_append,
        List.length_map, List.length_range, ih _ _ hfuel]
      simp only [SPI_READ_MAX_SIZE]
      omega

/-! ## Claim theorems -/

/-- C4: `transfer(tx, tx_len, rx, rx_len)` programs the burst counter to
`tx_len + rx_len`, then the transfer counter to `tx_len`, then (only for
the generation whose byte-count-confirm register exists) that register to
`tx_len`, writes the `tx_len` transmit bytes, sets the start-transfer bit,
busy-polls the low 7 bits of the FIFO status register until they reach
`tx_len + rx_len`, then reads and discards exactly `tx_len` echoed bytes
before reading exactly `rx_len` bytes into the receive buffer; the SUN6I
generation passes a nonzero byte-count-confirm register and the SUN4I
generation passes 0, so the secondary write occurs exactly for SUN6I. -/
theorem c4_xfer_step_order :
    ∀ (txbuf : List Nat) (rxlen spi_bcc_reg base : Nat),
      (sunxi_spi0_xfer txbuf rxlen spi_bcc_reg =
        XferStep.writeBC (txbuf.length + rxlen) ::
        XferStep.writeTC txbuf.length ::
        ((if spi_bcc_reg ≠ 0 then [XferStep.writeBCC txbuf.length] else []) ++
         txbuf.map XferStep.writeTX ++
         [XferStep.setXCH, XferStep.pollFifoLow7 (txbuf.length + rxlen)] ++
         List.replicate txbuf.length XferStep.skipRxByte ++
         List.replicate rxlen XferStep.readRxByte))
      ∧ spi0_xfer base true txbuf rxlen =
          sunxi_spi0_xfer txbuf rxlen (base + SUN6I_SPI0_BCC)
      ∧ spi0_xfer base false txbuf rxlen = sunxi_spi0_xfer txbuf rxlen 0
      ∧ XferStep.writeBCC txbuf.length ∈ spi0_xfer base true txbuf rxlen
      ∧ ∀ v, XferStep.writeBCC v ∉ spi0_xfer base false txbuf rxlen := by
  intro txbuf rxlen spi_bcc_reg base
  have hb : base + SUN6I_SPI0_BCC ≠ 0 := by simp [SUN6I_SPI0_BCC]
  refine ⟨?_, ?_, ?_, ?_, ?_⟩
  · simp [sunxi_spi0_xfer, tx_writes_eq_map, rx_skips_eq, rx_reads_eq]
  · simp [spi0_xfer]
  · simp [spi0_xfer]
  · simp [spi0_xfer, sunxi_spi0_xfer, hb]
  · intro v
    simp [spi0_xfer, sunxi_spi0_xfer, tx_writes_eq_map, rx_skips_eq,
      rx_reads_eq, List.mem_replicate]

/-- C5: for every NOR read, the number of bytes written to the destination
equals the requested length, consecutive transfers advance the flash
address by exactly the previous chunk size with every chunk except
possibly the last exactly 60 bytes, every chunk is at most 60 bytes, and
`spi_load_read_nor` always returns the requested count. -/
theorem c5_nor_chunking :
    ∀ (flash : Nat → Nat) (sector count : Nat),
      (spi_load_read_nor flash sector count).2.1.length = count
      ∧ (spi_load_read_nor flash sector count).2.2 = count
      ∧ List.Chain' (fun a b : ReadXfer =>
          a.rxlen = SPI_READ_MAX_SIZE ∧ b.addr = a.addr + a.rxlen)
          (spi_load_read_nor flash sector count).1
      ∧ ∀ x ∈ (spi_load_read_nor flash sector count).1,
          1 ≤ x.rxlen ∧ x.rxlen ≤ SPI_READ_MAX_SIZE := by
  intro flash sector count
  refine ⟨?_, rfl, ?_, ?_⟩
  · exact rd_buf_len flash count sector count (le_refl count)
  · exact rd_xfers_chain AddrLen.a3 count sector count (le_refl count)
  · intro x hx
    obtain ⟨h1, h2, _, _, _⟩ := rd_xfers_mem AddrLen.a3 count sector count x hx
    exact ⟨h1, h2⟩

theorem polls_finds (status : Nat → Nat) :
    ∀ (fuel count N : Nat), count ≤ N → N < count + fuel →
      (∀ i, count ≤ i → i < N → status i % 2 = 1) → status N % 2 = 0 →
      switch_page_polls status fuel count = some N := by
  intro fuel
  induction fuel with
  | zero => intro count N h1 h2 _ _; omega
  | succ fuel ih =>
    intro count N h1 h2 hbusy hready
    by_cases hc : count = N
    · subst hc; simp [switch_page_polls, hready]
    · have hb : status count % 2 = 1 := hbusy count (le_refl count) (by omega)
      simp only [switch_page_polls, hb]
      norm_num
      exact ih (count + 1) N (by omega) (by omega)
        (fun i hi1 hi2 => hbusy i (by omega) hi2) hready

theorem polls_none_of_busy (status : Nat → Nat) :
    ∀ (fuel count : Nat),
      (∀ i, count ≤ i → i < count + fuel → status i % 2 = 1) →
      switch_page_polls status fuel count = none := by
  intro fuel
  induction fuel with
  | zero => intro count _; rfl
  | succ fuel ih =>
    intro count hbusy
    have hb : status count % 2 = 1 := hbusy count (le_refl count) (by omega)
    simp only [switch_page_polls, hb]
    norm_num
    exact ih (count + 1) (fun i hi1 hi2 => hbusy i (by omega) (by omega))

theorem polls_none_imp_busy (status : Nat → Nat) :
    ∀ (fuel count : Nat), switch_page_polls status fuel count = none →
      ∀ i, count ≤ i → i < count + fuel → status i % 2 = 1 := by
  intro fuel
  induction fuel with
  | zero => intro count _ i _ _; omega
  | succ fuel ih =>
    intro count h i hi1 hi2
    by_cases hc : status count % 2 = 0
    · simp [switch_page_polls, hc] at h
    · by_cases hic : i = count
      · subst hic; omega
      · simp only [switch_page_polls, if_neg hc] at h
        exact ih (count + 1) h i (by omega) (by omega)

theorem switch_page_ok (status : Nat → Nat) (page N : Nat) (hN : N < 100)
    (hbusy : ∀ i, i < N → status i % 2 = 1) (hready : status N % 2 = 0) :
    (spi0_nand_switch_page status page).2 = 0 := by
  have h := polls_finds status 100 0 N (by omega) (by omega)
    (fun i _ hi => hbusy i hi) hready
  simp [spi0_nand_switch_page, h]

theorem switch_page_timeout (status : Nat → Nat) (page : Nat)
    (hbusy : ∀ i, i < 100 → status i % 2 = 1) :
    (spi0_nand_switch_page status page).2 = -ETIMEDOUT := by
  have h := polls_none_of_busy status 100 0 (fun i _ hi => hbusy i (by omega))
  simp [spi0_nand_switch_page, h]

theorem switch_page_ok_of_exists (status : Nat → Nat) (page : Nat)
    (h : ∃ N, N < 100 ∧ status N % 2 = 0) :
    (spi0_nand_switch_page status page).2 = 0 := by
  obtain ⟨N, hN, hr⟩ := h
  cases hp : switch_page_polls status 100 0 with
  | some k => simp [spi0_nand_switch_page, hp]
  | none =>
    have := polls_none_imp_busy status 100 0 hp N (by omega) (by omega)
    omega

theorem read_nand_go_ok (pagesize : Nat) (statusOf : Nat → Nat → Nat)
    (flash : Nat → Nat) (hp : 0 < pagesize)
    (hall : ∀ iter page,
      (spi0_nand_switch_page (statusOf iter) page).2 = 0) :
    ∀ (fuel iter sector remain : Nat), remain ≤ fuel →
      (read_nand_go pagesize statusOf flash fuel iter sector remain).2.2 =
        true := by
  intro fuel
  induction fuel with
  | zero => intro iter sector remain _; rfl
  | succ fuel ih =>
    intro iter sector remain hle
    by_cases h0 : remain = 0
    · simp [read_nand_go, h0]
    · have hm : sector % pagesize < pagesize := Nat.mod_lt sector hp
      simp only [read_nand_go, if_neg h0, hall iter (sector / pagesize),
        ne_eq, not_true_eq_false, if_false, not_false_eq_true]
      exact ih (iter + 1) _ _ (by omega)

/-- C2: a page switch whose polled status byte has bit 0 set for exactly
N < 100 polls and is then ready succeeds (returns 0); a status busy for
all 100 polls makes the page switch return `-ETIMEDOUT`; when every page
switch eventually sees a ready status the NAND read completes and returns
the full count, and when the first page switch stays busy for all 100
polls the whole NAND read aborts, returning 0, which is short of the
requested positive count. -/
theorem c2_page_switch_retry :
    ∀ (status : Nat → Nat) (page pagesize : Nat)
      (statusOf : Nat → Nat → Nat) (flash : Nat → Nat) (sector count : Nat),
      (∀ N, N < 100 → (∀ i, i < N → status i % 2 = 1) → status N % 2 = 0 →
        (spi0_nand_switch_page status page).2 = 0)
      ∧ ((∀ i, i < 100 → status i % 2 = 1) →
          (spi0_nand_switch_page status page).2 = -ETIMEDOUT)
      ∧ (0 < pagesize →
         (∀ iter, ∃ N, N < 100 ∧ statusOf iter N % 2 = 0) →
          spi_load_read_nand pagesize statusOf flash sector count = count)
      ∧ (0 < count → (∀ i, i < 100 → statusOf 0 i % 2 = 1) →
          spi_load_read_nand pagesize statusOf flash sector count = 0 ∧
          0 < count) := by
  intro status page pagesize statusOf flash sector count
  refine ⟨?_, ?_, ?_, ?_⟩
  · intro N hN hbusy hready
    exact switch_page_ok status page N hN hbusy hready
  · intro hbusy
    exact switch_page_timeout status page hbusy
  · intro hp hex
    have hall : ∀ iter p, (spi0_nand_switch_page (statusOf iter) p).2 = 0 :=
      fun iter p => switch_page_ok_of_exists (statusOf iter) p (hex iter)
    have hok := read_nand_go_ok pagesize statusOf flash hp hall count 0
      sector count (le_refl count)
    simp [spi_load_read_nand, spi_load_read_nand_run, hok]
  · intro hc hbusy
    refine ⟨?_, hc⟩
    obtain ⟨n, rfl⟩ : ∃ n, count = n + 1 :=
      ⟨count - 1, by omega⟩
    have hsw := switch_page_timeout (statusOf 0) (sector / pagesize) hbusy
    have hne : (spi0_nand_switch_page (statusOf 0) (sector / pagesize)).2 ≠
        0 := by
      rw [hsw]; simp [ETIMEDOUT]
    simp [spi_load_read_nand, spi_load_read_nand_run, read_nand_go, hne]

/-- C2 witness: concrete instances of every branch of the retry
contract. -/
theorem c2_page_switch_retry_witness :
    (spi0_nand_switch_page (fun i => if i < 5 then 1 else 0) 7).2 = 0 ∧
    (spi0_nand_switch_page (fun _ => 1) 7).2 = -ETIMEDOUT ∧
    spi_load_read_nand 2048 (fun _ _ => 0) (fun _ => 0) 0 100 = 100 ∧
    (spi_load_read_nand 2048 (fun _ _ => 1) (fun _ => 0) 0 100 = 0 ∧
      0 < 100) := by
  refine ⟨?_, ?_, ?_, ?_⟩
  · exact (c2_page_switch_retry (fun i => if i < 5 then 1 else 0) 7 2048
      (fun _ _ => 0) (fun _ => 0) 0 100).1 5 (by decide) (by decide)
      (by decide)
  · exact (c2_page_switch_retry (fun _ => 1) 7 2048 (fun _ _ => 0)
      (fun _ => 0) 0 100).2.1 (by decide)
  · exact (c2_page_switch_retry (fun _ => 1) 7 2048 (fun _ _ => 0)
      (fun _ => 0) 0 100).2.2.1 (by decide)
      (fun iter => ⟨0, by decide, by decide⟩)
  · exact (c2_page_switch_retry (fun _ => 1) 7 2048 (fun _ _ => 1)
      (fun _ => 0) 0 100).2.2.2 (by decide) (fun i _ => by decide)

theorem go_dataRead_bound (pagesize : Nat) (statusOf : Nat → Nat → Nat)
    (flash : Nat → Nat) (hp : 0 < pagesize) :
    ∀ (fuel iter sector remain : Nat),
      ∀ ev ∈ (read_nand_go pagesize statusOf flash fuel iter sector
          remain).1,
        ∀ off l, ev = NandEvent.dataRead off l → off + l ≤ pagesize := by
  intro fuel
  induction fuel with
  | zero => intro iter sector remain ev hev; simp [read_nand_go] at hev
  | succ fuel ih =>
    intro iter sector remain ev hev off l heq
    by_cases h0 : remain = 0
    · simp [read_nand_go, h0] at hev
    · by_cases hsw : (spi0_nand_switch_page (statusOf iter)
          (sector / pagesize)).2 ≠ 0
      · simp only [read_nand_go, if_neg h0, if_pos hsw,
          List.mem_singleton] at hev
        subst hev
        simp at heq
      · simp only [read_nand_go, if_neg h0, if_neg hsw,
          List.mem_cons] at hev
        have hm : sector % pagesize < pagesize := Nat.mod_lt sector hp
        rcases hev with rfl | rfl | hev
        · simp at heq
        · obtain ⟨rfl, rfl⟩ := NandEvent.dataRead.inj heq.symm
          omega
        · exact ih (iter + 1) _ _ ev hev off l heq

/-- C3: the NAND read never issues a data read whose intra-page offset
plus length exceeds the page size — both at the page-cycle level and for
every chunked transfer issued inside a cycle — and the concrete read of
200 bytes at offset 2000 with page size 2048 is split into exactly two
page-switch-plus-read cycles of 48 bytes at intra-page offset 2000 and
152 bytes at intra-page offset 0, returning the full 200. -/
theorem c3_boundary_splitting :
    (∀ (pagesize : Nat) (statusOf : Nat → Nat → Nat) (flash : Nat → Nat)
       (sector count : Nat), 0 < pagesize →
      ∀ ev ∈ (spi_load_read_nand_run pagesize statusOf flash sector
          count).1,
        ∀ off l, ev = NandEvent.dataRead off l →
          off + l ≤ pagesize ∧
          ∀ x ∈ spi0_read_data_cmds off l AddrLen.a2,
            x.addr + x.rxlen ≤ pagesize)
    ∧ (spi_load_read_nand_run 2048 (fun _ _ => 0) (fun _ => 0)
        2000 200).1 =
      [NandEvent.pageSwitch 0, NandEvent.dataRead 2000 48,
       NandEvent.pageSwitch 1, NandEvent.dataRead 0 152]
    ∧ spi_load_read_nand 2048 (fun _ _ => 0) (fun _ => 0) 2000 200 =
        200 := by
  refine ⟨?_, by decide, by decide⟩
  intro pagesize statusOf flash sector count hp ev hev off l heq
  have hb := go_dataRead_bound pagesize statusOf flash hp count 0 sector
    count ev hev off l heq
  refine ⟨hb, ?_⟩
  intro x hx
  obtain ⟨_, _, _, _, h5⟩ := rd_xfers_mem AddrLen.a2 l off l x hx
  omega

/-- C3 witness: the boundary invariant evaluated on the page-crossing
scenario from the specification. -/
theorem c3_boundary_splitting_witness :
    2000 + 48 ≤ 2048 ∧
    ∀ x ∈ spi0_read_data_cmds 2000 48 AddrLen.a2,
      x.addr + x.rxlen ≤ 2048 := by
  exact c3_boundary_splitting.1 2048 (fun _ _ => 0) (fun _ => 0) 2000 200
    (by decide) (NandEvent.dataRead 2000 48) (by decide) 2000 48 rfl

theorem go_pagecmd (pagesize : Nat) (statusOf : Nat → Nat → Nat)
    (flash : Nat → Nat) :
    ∀ (fuel iter sector remain : Nat),
      PageCmdOk pagesize sector
        (read_nand_go pagesize statusOf flash fuel iter sector remain).1 := by
  intro fuel
  induction fuel with
  | zero => intro iter sector remain; exact PageCmdOk.nil sector
  | succ fuel ih =>
    intro iter sector remain
    by_cases h0 : remain = 0
    · simp only [read_nand_go, if_pos h0]
      exact PageCmdOk.nil sector
    · by_cases hsw : (spi0_nand_switch_page (statusOf iter)
          (sector / pagesize)).2 ≠ 0
      · simp only [read_nand_go, if_neg h0, if_pos hsw]
        exact PageCmdOk.stop sector
      · simp only [read_nand_go, if_neg h0, if_neg hsw]
        exact PageCmdOk.step sector _ _ (ih (iter + 1) _ _)

/-- C8: every NOR data-read command is a 4-byte header of opcode 0x03
followed by a 3-byte big-endian address (the three address bytes decode
back to the flash address modulo 2^24); every NAND data-read command is
opcode 0x03, a 2-byte big-endian column address and a zero dummy third
byte; every NAND page-switch command is opcode 0x13 followed by the
3-byte big-endian page index, and the NAND read always switches to page
`offset / page_size` and reads at column `offset % page_size` for the
running byte offset. -/
theorem c8_command_framing :
    (∀ (flash : Nat → Nat) (sector count : Nat),
      ∀ x ∈ (spi_load_read_nor flash sector count).1,
        x.tx.length = 4 ∧ x.tx.getD 0 0 = 0x03 ∧
        x.tx.getD 1 0 * 65536 + x.tx.getD 2 0 * 256 + x.tx.getD 3 0 =
          x.addr % 16777216)
    ∧ (∀ (addr len : Nat), ∀ x ∈ spi0_read_data_cmds addr len AddrLen.a2,
        x.tx.length = 4 ∧ x.tx.getD 0 0 = 0x03 ∧ x.tx.getD 3 0 = 0 ∧
        x.tx.getD 1 0 * 256 + x.tx.getD 2 0 = x.addr % 65536)
    ∧ (∀ (status : Nat → Nat) (page : Nat),
        (spi0_nand_switch_page status page).1.length = 4 ∧
        (spi0_nand_switch_page status page).1.getD 0 0 = 0x13 ∧
        (spi0_nand_switch_page status page).1.getD 1 0 * 65536 +
          (spi0_nand_switch_page status page).1.getD 2 0 * 256 +
          (spi0_nand_switch_page status page).1.getD 3 0 =
          page % 16777216)
    ∧ (∀ (pagesize : Nat) (statusOf : Nat → Nat → Nat) (flash : Nat → Nat)
        (sector count : Nat),
        PageCmdOk pagesize sector
          (spi_load_read_nand_run pagesize statusOf flash sector
            count).1) := by
  refine ⟨?_, ?_, ?_, ?_⟩
  · intro flash sector count x hx
    obtain ⟨_, _, h3, _, _⟩ := rd_xfers_mem AddrLen.a3 count sector count x hx
    rw [h3]
    refine ⟨rfl, rfl, ?_⟩
    simp only [read_cmd, List.getD]
    simp only [List.get?, Option.getD_some]
    omega
  · intro addr len x hx
    obtain ⟨_, _, h3, _, _⟩ := rd_xfers_mem AddrLen.a2 len addr len x hx
    rw [h3]
    refine ⟨rfl, rfl, rfl, ?_⟩
    simp only [read_cmd, List.getD]
    simp only [List.get?, Option.getD_some]
    omega
  · intro status page
    refine ⟨rfl, rfl, ?_⟩
    simp only [spi0_nand_switch_page, spi0_nand_switch_page_tx, List.getD]
    simp only [List.get?, Option.getD_some]
    omega
  · intro pagesize statusOf flash sector count
    exact go_pagecmd pagesize statusOf flash count 0 sector count

/-- C8 witness: the framing facts evaluated on concrete commands. -/
theorem c8_command_framing_witness :
    ((⟨2000, read_cmd 2000 AddrLen.a3, 60⟩ : ReadXfer).tx.length = 4 ∧
     (⟨2000, read_cmd 2000 AddrLen.a3, 60⟩ : ReadXfer).tx.getD 0 0 = 0x03 ∧
     (⟨2000, read_cmd 2000 AddrLen.a3, 60⟩ : ReadXfer).tx.getD 1 0 * 65536 +
       (⟨2000, read_cmd 2000 AddrLen.a3, 60⟩ : ReadXfer).tx.getD 2 0 * 256 +
       (⟨2000, read_cmd 2000 AddrLen.a3, 60⟩ : ReadXfer).tx.getD 3 0 =
       (⟨2000, read_cmd 2000 AddrLen.a3, 60⟩ : ReadXfer).addr % 16777216)
    ∧ PageCmdOk 2048 2000
        (spi_load_read_nand_run 2048 (fun _ _ => 0) (fun _ => 0)
          2000 200).1 := by
  refine ⟨?_, ?_⟩
  · exact c8_command_framing.1 (fun _ => 0) 2000 100
      ⟨2000, read_cmd 2000 AddrLen.a3, 60⟩ (by decide)
  · exact c8_command_framing.2.2.2 2048 (fun _ _ => 0) (fun _ => 0) 2000 200

/-- C10: the NAND read returns either 0 or exactly the requested count,
never a positive shorter count; a zero-length request returns 0; and in a
concrete run where the first page switch succeeds and the second times
out, the call returns 0 while the four bytes of the first page are
already in the destination buffer (no rollback). -/
theorem c10_all_or_nothing :
    ∀ (pagesize : Nat) (statusOf : Nat → Nat → Nat) (flash : Nat → Nat)
      (sector count : Nat),
      (spi_load_read_nand pagesize statusOf flash sector count = 0 ∨
       spi_load_read_nand pagesize statusOf flash sector count = count)
      ∧ spi_load_read_nand pagesize statusOf flash sector 0 = 0
      ∧ spi_load_read_nand 4 (fun it _ => if it = 0 then 0 else 1)
          (fun a => a) 0 8 = 0
      ∧ (spi_load_read_nand_run 4 (fun it _ => if it = 0 then 0 else 1)
          (fun a => a) 0 8).2.1 = [0, 1, 2, 3] := by
  intro pagesize statusOf flash sector count
  refine ⟨?_, rfl, by decide, by decide⟩
  by_cases h : (spi_load_read_nand_run pagesize statusOf flash sector
      count).2.2 = true
  · right; simp [spi_load_read_nand, h]
  · left; simp [spi_load_read_nand, h]

/-- C1 counterexample: a successful header read carrying the legacy magic
with raw loading not permitted does not fail with `-EINVAL` as the claim
requires; the code takes the legacy parse-and-load path and succeeds. -/
theorem c1_classification_counterexample :
    (spl_spi_try_load true envLegacy 0 false).2 = 0 ∧
    ¬(spl_spi_try_load true envLegacy 0 false).2 = -EINVAL ∧
    LoadEvent.parseEv ∈ (spl_spi_try_load true envLegacy 0 false).1 := by
  refine ⟨by decide, by decide, by decide⟩

/-- C1 (amended): after a successful 64-byte header read, a header whose
magic equals the structured-image magic routes to the structured loader
with its status propagated; otherwise the legacy load path is taken
whenever raw loading is permitted or the magic equals the legacy
signature; `-EINVAL` is returned exactly when raw loading is not
permitted and the magic matches neither format. -/
theorem c1_classification_amended :
    ∀ (env : DispatchEnv) (offset : Nat) (allow_raw : Bool),
      (env.read offset 0x40).1 ≠ 0 →
      ((image_get_magic (env.read offset 0x40).2 = FDT_MAGIC →
         spl_spi_try_load true env offset allow_raw =
           ([LoadEvent.readEv offset 0x40, LoadEvent.fitEv],
            env.simple_fit offset (env.read offset 0x40).2))
       ∧ (image_get_magic (env.read offset 0x40).2 ≠ FDT_MAGIC →
          (allow_raw = true ∨
             image_get_magic (env.read offset 0x40).2 = IH_MAGIC) →
            LoadEvent.parseEv ∈ (spl_spi_try_load true env offset
              allow_raw).1)
       ∧ (image_get_magic (env.read offset 0x40).2 ≠ FDT_MAGIC →
          allow_raw = false →
          image_get_magic (env.read offset 0x40).2 ≠ IH_MAGIC →
            spl_spi_try_load true env offset allow_raw =
              ([LoadEvent.readEv offset 0x40], -EINVAL))) := by
  intro env offset allow_raw h
  refine ⟨?_, ?_, ?_⟩
  · intro hm
    simp only [spl_spi_try_load, if_neg h]
    rw [if_pos ⟨by trivial, hm⟩]
  · intro hm hok
    simp only [spl_spi_try_load, if_neg h]
    rw [if_neg (by simp [hm])]
    have hraw : ¬(allow_raw = false ∧
        image_get_magic (env.read offset 0x40).2 ≠ IH_MAGIC) := by
      rcases hok with h1 | h1 <;> simp [h1]
    rw [if_neg hraw]
    by_cases hp : (env.parse_header (env.read offset 0x40).2).ret ≠ 0
    · rw [if_pos hp]; simp
    · rw [if_neg hp]
      by_cases hr : (env.read offset
          (env.parse_header (env.read offset 0x40).2).size).1 = 0
      · rw [if_pos hr]; simp
      · rw [if_neg hr]; simp
  · intro hm hraw hih
    simp only [spl_spi_try_load, if_neg h]
    rw [if_neg (by simp [hm]), if_pos ⟨hraw, hih⟩]

/-- C1 witness: the amended classification evaluated on the legacy-image
device with raw loading not permitted. -/
theorem c1_classification_amended_witness :
    LoadEvent.parseEv ∈ (spl_spi_try_load true envLegacy 0 false).1 := by
  exact (c1_classification_amended envLegacy 0 false (by decide)).2.1
    (by decide) (Or.inr (by decide))

theorem try_load_head (fit_enabled : Bool) (env : DispatchEnv)
    (offset : Nat) (allow_raw : Bool) :
    (spl_spi_try_load fit_enabled env offset allow_raw).1.head? =
      some (LoadEvent.readEv offset 0x40) := by
  simp only [spl_spi_try_load]
  split_ifs <;> rfl

theorem try_load_no_deinit (fit_enabled : Bool) (env : DispatchEnv)
    (offset : Nat) (allow_raw : Bool) :
    LoadEvent.deinitEv ∉ (spl_spi_try_load fit_enabled env offset
      allow_raw).1 := by
  simp only [spl_spi_try_load]
  split_ifs <;> simp

/-- C7: the dispatch first reads exactly 64 (0x40) bytes at the load
offset, and when that read returns zero it fails with `-EINVAL` having
made no classification decision and no further read: the trace is just
the one header-read call. -/
theorem c7_header_read_precondition :
    ∀ (fit_enabled : Bool) (env : DispatchEnv) (offset : Nat)
      (allow_raw : Bool),
      (spl_spi_try_load fit_enabled env offset allow_raw).1.head? =
        some (LoadEvent.readEv offset 0x40)
      ∧ ((env.read offset 0x40).1 = 0 →
          spl_spi_try_load fit_enabled env offset allow_raw =
            ([LoadEvent.readEv offset 0x40], -EINVAL)) := by
  intro fit_enabled env offset allow_raw
  refine ⟨try_load_head fit_enabled env offset allow_raw, ?_⟩
  intro h
  simp [spl_spi_try_load, h]

/-- C7 witness: the failed-header-read path on a device whose reads
return 0 bytes. -/
theorem c7_header_read_precondition_witness :
    spl_spi_try_load true envDead 0 true =
      ([LoadEvent.readEv 0 0x40], -EINVAL) := by
  exact (c7_header_read_precondition true envDead 0 true).2 (by decide)

/-- C6: on every exit path of the top-level image load the deinit
sequence executes exactly once, is the last action before returning, and
the status of `spl_spi_try_load` (success or any failure) is returned
unchanged to the caller. -/
theorem c6_teardown :
    ∀ (fit_enabled : Bool) (spl_size min_offs : Nat) (env : DispatchEnv)
      (dev : BootDev),
      (spl_spi_load_image fit_enabled spl_size min_offs env dev).1.count
          LoadEvent.deinitEv = 1
      ∧ (spl_spi_load_image fit_enabled spl_size min_offs env
          dev).1.getLast? = some LoadEvent.deinitEv
      ∧ (spl_spi_load_image fit_enabled spl_size min_offs env dev).2 =
          (spl_spi_try_load fit_enabled env (max spl_size min_offs)
            (allow_raw_for dev)).2 := by
  intro fit_enabled spl_size min_offs env dev
  have hnd := try_load_no_deinit fit_enabled env (max spl_size min_offs)
    (allow_raw_for dev)
  refine ⟨?_, ?_, ?_⟩
  · simp only [spl_spi_load_image, List.count_append]
    rw [List.count_eq_zero.mpr hnd]
    cases dev <;> simp [allow_raw_for]
  · simp only [spl_spi_load_image]
    exact List.getLast?_concat _
  · cases dev <;> simp [spl_spi_load_image, allow_raw_for]

/-- C9: the flash offset of the header read equals the maximum of the
loader's own on-flash footprint size and the configured minimum offset,
so the loaded image region starts at or beyond the end of the loader's
own flash image. -/
theorem c9_load_offset :
    ∀ (fit_enabled : Bool) (spl_size min_offs : Nat) (env : DispatchEnv)
      (dev : BootDev),
      LoadEvent.readEv (max spl_size min_offs) 0x40 ∈
        (spl_spi_load_image fit_enabled spl_size min_offs env dev).1
      ∧ spl_size ≤ max spl_size min_offs
      ∧ min_offs ≤ max spl_size min_offs := by
  intro fit_enabled spl_size min_offs env dev
  refine ⟨?_, le_max_left _ _, le_max_right _ _⟩
  have hmem := head_mem (try_load_head fit_enabled env
    (max spl_size min_offs) (allow_raw_for dev))
  simp only [spl_spi_load_image, List.append_assoc, List.mem_append]
  exact Or.inr (Or.inl hmem)

/-- C4 witness: the secondary-counter write occurs on the generation
passing a nonzero byte-count-confirm register and never on the other. -/
theorem c4_xfer_step_order_witness :
    XferStep.writeBCC 2 ∈ spi0_xfer 16 true [5, 6] 3 ∧
    XferStep.writeBCC 2 ∉ spi0_xfer 16 false [5, 6] 3 := by
  refine ⟨?_, ?_⟩
  · exact (c4_xfer_step_order [5, 6] 3 0 16).2.2.2.1
  · exact (c4_xfer_step_order [5, 6] 3 0 16).2.2.2.2 2

/-- C5 witness: chunk facts evaluated on a concrete 130-byte NOR read. -/
theorem c5_nor_chunking_witness :
    (spi_load_read_nor (fun _ => 0) 1000 130).2.1.length = 130 ∧
    (1 ≤ (⟨1000, read_cmd 1000 AddrLen.a3, 60⟩ : ReadXfer).rxlen ∧
     (⟨1000, read_cmd 1000 AddrLen.a3, 60⟩ : ReadXfer).rxlen ≤
       SPI_READ_MAX_SIZE) := by
  refine ⟨(c5_nor_chunking (fun _ => 0) 1000 130).1, ?_⟩
  exact (c5_nor_chunking (fun _ => 0) 1000 130).2.2.2
    ⟨1000, read_cmd 1000 AddrLen.a3, 60⟩ (by decide)
